import Mathlib

/-!
Shallow embedding of the Todo-AI backend: the CRUD handlers over the
todos store (source file `src/unnamed/part_000`) and the intent-resolution
helpers of `src/gemini.js`.  Task texts and raw model responses are
modelled as `List Char`; HTTP responses as a small inductive; the store
as the list of rows the database holds, in select order.  Backend
failures of the database client are modelled by an `Option String`
parameter carrying the error message (`none` = the call succeeds).
-/

set_option autoImplicit false

namespace TodoAI

/-- A row of the `todos` table: `{ id, task, done }`. -/
structure Todo where
  id : Int
  task : List Char
  done : Bool
  deriving Repr, DecidableEq

/-- The store state: all rows, in the order `select('*')` returns them. -/
abbrev Store := List Todo

/-- An HTTP JSON response: a single record (`res.json(data[0])`), a list of
records (`res.json(data)`), or an error body with a status code. -/
inductive Resp where
  | one (status : Nat) (t : Todo)
  | many (status : Nat) (ts : List Todo)
  | err (status : Nat) (msg : String)
  deriving Repr, DecidableEq

/-- The mutable part of `req.body` that reaches `UpdateTodo`: the handlers in
gemini.js may set `req.body.done` and `req.body.task` before delegating. -/
structure Body where
  done : Option Bool
  task : Option (List Char)
  deriving Repr, DecidableEq

/-- JavaScript truthiness of an optional string field (`!task`):
falsy when absent or empty. -/
def jsFalsyStr (s : Option (List Char)) : Bool :=
  match s with
  | none => true
  | some t => t.isEmpty

/-- JavaScript truthiness of an optional numeric id (`!id`):
falsy when `null` or `0`. -/
def jsFalsyId (i : Option Int) : Bool :=
  match i with
  | none => true
  | some n => n == 0

/-! ### CRUD handlers (src/unnamed/part_000) -/

/-- `CreateTodo`: rejects a falsy `task` with 400, otherwise inserts
`{ task }`; the store assigns `nextId` and defaults `done` to `false`;
on success responds 201 with `data[0]`, the created row. -/
def CreateTodo (task : Option (List Char)) (storeErr : Option String)
    (nextId : Int) (st : Store) : Resp × Store :=
  if jsFalsyStr task then
    (.err 400 "Title and description are required", st)
  else
    match storeErr with
    | some m => (.err 500 m, st)
    | none =>
      let t : Todo := { id := nextId, task := task.getD [], done := false }
      (.one 201 t, st ++ [t])

/-- `GetTodos` without a response object: returns the full row list. -/
def GetTodosData (st : Store) : List Todo := st

/-- `UpdateTodo`: destructures `done` from the body and runs
`update({ done }).eq('id', id).select()`.  Note the body's `task` field is
never read: only the `done` column is written.  An absent `done`
(`undefined`) is dropped from the patch, leaving the row's flag unchanged.
Responds 200 with the matched (updated) rows. -/
def UpdateTodo (id : Int) (body : Body) (storeErr : Option String)
    (st : Store) : Resp × Store :=
  match storeErr with
  | some m => (.err 500 m, st)
  | none =>
    let st' := st.map fun r =>
      if r.id = id then { r with done := body.done.getD r.done } else r
    (.many 200 (st'.filter fun r => r.id == id), st')

/-- `DeleteTodo`: runs `delete().eq('id', id).select()`; responds 200 with
the deleted rows (possibly `[]`). -/
def DeleteTodo (id : Int) (storeErr : Option String) (st : Store) :
    Resp × Store :=
  match storeErr with
  | some m => (.err 500 m, st)
  | none =>
    (.many 200 (st.filter fun r => r.id == id),
     st.filter fun r => !(r.id == id))

/-! ### String utilities (src/gemini.js) -/

/-- The whitespace class of JavaScript `trim` / `\s` restricted to the
ASCII whitespace characters. -/
def isWS (c : Char) : Bool :=
  c == ' ' || c == '\t' || c == '\n' || c == '\r' || c == '\x0b' || c == '\x0c'

/-- Drop leading whitespace. -/
def trimLeft (s : List Char) : List Char := s.dropWhile isWS

/-- Drop trailing whitespace. -/
def trimRight (s : List Char) : List Char := (s.reverse.dropWhile isWS).reverse

/-- JavaScript `String.prototype.trim`. -/
def jsTrim (s : List Char) : List Char := trimRight (trimLeft s)

/-- Does `s` start with `pre` (character-wise)? -/
def startsWithL : List Char → List Char → Bool
  | _, [] => true
  | [], _ :: _ => false
  | a :: as, b :: bs => a == b && startsWithL as bs

/-- Does `s` end with `suf`? -/
def endsWithL (s suf : List Char) : Bool :=
  startsWithL s.reverse suf.reverse

/-- JavaScript `includes`: does `hay` contain `needle` as a contiguous
substring? -/
def containsSub (needle : List Char) : List Char → Bool
  | [] => needle.isEmpty
  | c :: t => startsWithL (c :: t) needle || containsSub needle t

/-- Lowercase a text, character by character (`toLowerCase`). -/
def lowerL (s : List Char) : List Char := s.map Char.toLower

/-- The backtick character, U+0060. -/
def btick : Char := Char.ofNat 96

/-- The opening code-fence marker the regex anchors on. -/
def fenceJson : List Char := [btick, btick, btick, 'j', 's', 'o', 'n']

/-- The closing code-fence marker. -/
def fenceEnd : List Char := [btick, btick, btick]

/-- `replace(/^(three backticks)json\s*/, '')`: when the string starts with
the opening marker, drop it and the whitespace following it. -/
def stripFenceStart (s : List Char) : List Char :=
  if startsWithL s fenceJson then trimLeft (s.drop 7) else s

/-- `replace(/(three backticks)$/, '')`: when the string ends with the
closing marker, drop those last three characters. -/
def stripFenceEnd (s : List Char) : List Char :=
  if endsWithL s fenceEnd then s.take (s.length - 3) else s

/-- `cleanJsonString`: trim, strip an opening code-fence marker, strip a
closing one, trim again. -/
def cleanJsonString (s : List Char) : List Char :=
  jsTrim (stripFenceEnd (stripFenceStart (jsTrim s)))

/-! ### Intent resolution (src/gemini.js) -/

/-- The structured intent parsed from the model response.  A `none` field
models the key being absent (or of the wrong runtime type) in the JSON. -/
structure Parsed where
  intent : String
  id : Option Int
  position : Option Int
  task : Option (List Char)
  newTask : Option (List Char)
  done : Option Bool
  deriving Repr, DecidableEq

/-- The `req.body` fields `handleUpdateIntent` forwards to `UpdateTodo`:
`done` when the parsed intent carries a boolean, `task` when `newTask` is
truthy (present and non-empty). -/
def mkUpdateBody (p : Parsed) : Body :=
  { done := p.done
    task := match p.newTask with
            | some s => if s.isEmpty then none else some s
            | none => none }

/-- `findTodoIdByPosition`: 1-based position, negative counting from the
end; `null` on an empty list or an out-of-range index. -/
def findTodoIdByPosition (position : Int) (st : Store) : Option Int :=
  if st.isEmpty then none
  else
    let index : Int :=
      if position > 0 then position - 1 else (st.length : Int) + position
    if index < 0 ∨ (st.length : Int) ≤ index then none
    else (st[index.toNat]?).map Todo.id

/-- `findTodoIdByPartialTaskName`: the id of the first row whose lowercased
task contains the lowercased fragment; `null` when none does. -/
def findTodoIdByPartialTaskName (taskText : List Char) (st : Store) :
    Option Int :=
  if st.isEmpty then none
  else
    (st.find? fun t => containsSub (lowerL taskText) (lowerL t.task)).map
      Todo.id

/-- `handleUpdateIntent`: resolve the target by id, then position, then
task fragment; 404 when a finder yields a falsy id; 400 when no reference
is present; otherwise delegate to `UpdateTodo`. -/
def handleUpdateIntent (p : Parsed) (st : Store) : Resp × Store :=
  match p.id with
  | some i => UpdateTodo i (mkUpdateBody p) none st
  | none =>
    match p.position with
    | some pos =>
      let idO := findTodoIdByPosition pos st
      if jsFalsyId idO then
        (.err 404 ("No task found at position " ++ toString pos), st)
      else UpdateTodo (idO.getD 0) (mkUpdateBody p) none st
    | none =>
      match p.task with
      | some frag =>
        let idO := findTodoIdByPartialTaskName frag st
        if jsFalsyId idO then
          (.err 404 "No task found matching the given text", st)
        else UpdateTodo (idO.getD 0) (mkUpdateBody p) none st
      | none =>
        (.err 400 "Need either id, position, or task text for update", st)

/-- `handleDeleteIntent`: same resolution order, delegating to
`DeleteTodo`. -/
def handleDeleteIntent (p : Parsed) (st : Store) : Resp × Store :=
  match p.id with
  | some i => DeleteTodo i none st
  | none =>
    match p.position with
    | some pos =>
      let idO := findTodoIdByPosition pos st
      if jsFalsyId idO then
        (.err 404 ("No task found at position " ++ toString pos), st)
      else DeleteTodo (idO.getD 0) none st
    | none =>
      match p.task with
      | some frag =>
        let idO := findTodoIdByPartialTaskName frag st
        if jsFalsyId idO then
          (.err 404 "No task found matching the given text", st)
        else DeleteTodo (idO.getD 0) none st
      | none =>
        (.err 400 "Need either id, position, or task text for delete", st)

/-- `handleAiPrompt`, lines 7-9: the guard on `req.body.prompt`.  The body
of the `try` block (model call, parsing, dispatch) is abstracted as a
continuation `rest` on the store state; a falsy prompt returns 400
before it runs. -/
def handleAiPrompt (prompt : Option (List Char))
    (rest : Store → Resp × Store) (st : Store) : Resp × Store :=
  if jsFalsyStr prompt then (.err 400 "Prompt is required", st)
  else rest st

/-! ### Demo stores used as concrete instances -/

/-- The two-record store of the spec's concrete scenario. -/
def demoStore : Store :=
  [⟨1, "Buy milk".toList, false⟩, ⟨2, "Read book".toList, false⟩]

/-! ### Claims -/

/-- C1: evaluation of the code at the failing input.  The parsed intent
carries `id = 1`, `newTask = "read novel"` and `done = true` against a
store whose only row is `{id 1, task "read book", done false}`.
`handleUpdateIntent` forwards the new text in the body, but `UpdateTodo`
destructures only `done`, so the row's task stays `"read book"`: the
claim that the new task text is written to the record is false here. -/
theorem c1_update_drops_newTask :
    handleUpdateIntent
        ⟨"update", some 1, none, none, some "read novel".toList, some true⟩
        [⟨1, "read book".toList, false⟩]
      = (.many 200 [⟨1, "read book".toList, true⟩],
         [⟨1, "read book".toList, true⟩]) := by
  decide

/-- C6: a create request with a falsy (absent or empty) task fails with
the 400 validation error and leaves the store untouched, whatever the
other inputs; with a non-empty task and a succeeding insert it returns
201 with the newly created row, which carries the assigned id, and the
row is appended to the store. -/
theorem c6_create_validation (task : Option (List Char))
    (storeErr : Option String) (nextId : Int) (st : Store) :
    (jsFalsyStr task = true →
      CreateTodo task storeErr nextId st
        = (.err 400 "Title and description are required", st))
  ∧ (∀ t, task = some t → t ≠ [] → storeErr = none →
      CreateTodo task storeErr nextId st
        = (.one 201 ⟨nextId, t, false⟩, st ++ [⟨nextId, t, false⟩])) := by
  constructor
  · intro h
    simp [CreateTodo, h]
  · rintro t rfl ht rfl
    simp [CreateTodo, jsFalsyStr, ht]

/-- C6 witness: the empty-task rejection and the successful insert, both
at concrete inputs. -/
theorem c6_create_validation_witness :
    CreateTodo (some []) (some "boom") 7 demoStore
      = (.err 400 "Title and description are required", demoStore)
  ∧ CreateTodo (some "Walk dog".toList) none 3 demoStore
      = (.one 201 ⟨3, "Walk dog".toList, false⟩,
         demoStore ++ [⟨3, "Walk dog".toList, false⟩]) :=
  ⟨(c6_create_validation (some []) (some "boom") 7 demoStore).1 (by decide),
   (c6_create_validation (some "Walk dog".toList) none 3 demoStore).2
     "Walk dog".toList rfl (by decide) rfl⟩

/-- C7: deleting an id that matches no stored row succeeds with 200 and an
empty row list, and the store is unchanged; and a delete can only fail
when the backend reports an error, in which case the handler returns 500
with exactly that message. -/
theorem c7_delete_missing_noop (i : Int) (storeErr : Option String)
    (st : Store) :
    ((∀ r ∈ st, r.id ≠ i) → DeleteTodo i none st = (.many 200 [], st))
  ∧ (storeErr = none → ∃ body, (DeleteTodo i storeErr st).1 = .many 200 body)
  ∧ (∀ s m, (DeleteTodo i storeErr st).1 = .err s m →
      storeErr = some m ∧ s = 500) := by
  refine ⟨?_, ?_, ?_⟩
  · intro h
    simp only [DeleteTodo, Prod.mk.injEq]
    constructor
    · have : st.filter (fun r => r.id == i) = [] := by
        rw [List.filter_eq_nil_iff]
        intro a ha
        simpa using h a ha
      rw [this]
    · apply List.filter_eq_self.2
      intro a ha
      simpa using h a ha
  · rintro rfl
    exact ⟨_, rfl⟩
  · intro s m h
    cases storeErr with
    | none => simp [DeleteTodo] at h
    | some m' =>
      simp only [DeleteTodo, Resp.err.injEq] at h
      exact ⟨by rw [h.2], h.1.symm⟩

/-- C7 witness: deleting the absent id 9 from the demo store is a silent
no-op, and with no backend error the result is a 200. -/
theorem c7_delete_missing_noop_witness :
    DeleteTodo 9 none demoStore = (.many 200 [], demoStore)
  ∧ ∃ body, (DeleteTodo 9 none demoStore).1 = .many 200 body :=
  ⟨(c7_delete_missing_noop 9 none demoStore).1 (by decide),
   (c7_delete_missing_noop 9 none demoStore).2.1 rfl⟩

/-- C10: when the request body's prompt is falsy (absent or empty), the
AI endpoint answers 400 "Prompt is required" with the store untouched,
and the result does not depend on the rest of the pipeline (model call,
parsing, dispatch), which is therefore never consulted. -/
theorem c10_prompt_required (prompt : Option (List Char))
    (rest rest' : Store → Resp × Store) (st : Store)
    (h : jsFalsyStr prompt = true) :
    handleAiPrompt prompt rest st = (.err 400 "Prompt is required", st)
  ∧ handleAiPrompt prompt rest st = handleAiPrompt prompt rest' st := by
  constructor <;> simp [handleAiPrompt, h]

/-- C10 witness: both the absent and the empty prompt are rejected, at a
pipeline continuation that would otherwise wipe the store. -/
theorem c10_prompt_required_witness :
    handleAiPrompt none (fun _ => (.many 200 [], [])) demoStore
      = (.err 400 "Prompt is required", demoStore)
  ∧ handleAiPrompt (some []) (fun _ => (.many 200 [], [])) demoStore
      = (.err 400 "Prompt is required", demoStore) :=
  ⟨(c10_prompt_required none (fun _ => (.many 200 [], []))
      (fun _ => (.many 200 [], [])) demoStore (by decide)).1,
   (c10_prompt_required (some []) (fun _ => (.many 200 [], []))
      (fun _ => (.many 200 [], [])) demoStore (by decide)).1⟩

/-- C8: an update touches only rows whose id equals the target (length and
every other position of the store are preserved), a delete removes
exactly the rows whose id equals the target, and, concretely, updating
id 2 with `done = true` on the spec's two-record store flips record 2
and leaves record 1 in place. -/
theorem c8_target_isolation (st : Store) (i : Int) (body : Body) :
    ((UpdateTodo i body none st).2.length = st.length
      ∧ ∀ (k : Nat) (r : Todo), st[k]? = some r → r.id ≠ i →
          (UpdateTodo i body none st).2[k]? = some r)
  ∧ (∀ r : Todo, r ∈ (DeleteTodo i none st).2 ↔ r ∈ st ∧ r.id ≠ i)
  ∧ UpdateTodo 2 ⟨some true, none⟩ none demoStore
      = (.many 200 [⟨2, "Read book".toList, true⟩],
         [⟨1, "Buy milk".toList, false⟩, ⟨2, "Read book".toList, true⟩]) := by
  refine ⟨⟨by simp [UpdateTodo], ?_⟩, ?_, by decide⟩
  · intro k r hk hr
    simp only [UpdateTodo, List.getElem?_map, hk, Option.map_some']
    simp [hr]
  · intro r
    simp only [DeleteTodo, List.mem_filter]
    constructor
    · rintro ⟨ha, hb⟩
      exact ⟨ha, by simpa using hb⟩
    · rintro ⟨ha, hb⟩
      exact ⟨ha, by simpa using hb⟩

/-- C8 witness: at the concrete scenario, record 1 (store position 0) is
untouched by the update targeting id 2, and record 1 survives the delete
targeting id 2. -/
theorem c8_target_isolation_witness :
    (UpdateTodo 2 ⟨some true, none⟩ none demoStore).2[0]?
      = some ⟨1, "Buy milk".toList, false⟩
  ∧ (⟨1, "Buy milk".toList, false⟩ : Todo) ∈ (DeleteTodo 2 none demoStore).2 :=
  ⟨(c8_target_isolation demoStore 2 ⟨some true, none⟩).1.2 0
      ⟨1, "Buy milk".toList, false⟩ (by decide) (by decide),
   ((c8_target_isolation demoStore 2 ⟨some true, none⟩).2.1
      ⟨1, "Buy milk".toList, false⟩).2 ⟨by decide, by decide⟩⟩

/-- The zero-based index formula of the spec: `position − 1` for a
positive position, `length + position` otherwise. -/
def posIndex (position : Int) (n : Nat) : Int :=
  if position > 0 then position - 1 else (n : Int) + position

/-- `findTodoIdByPosition` in closed form: the looked-up id exactly when
the spec's index lies in `[0, length)`, `none` otherwise. -/
theorem findTodoIdByPosition_eq (p : Int) (st : Store) :
    findTodoIdByPosition p st =
      if 0 ≤ posIndex p st.length ∧ posIndex p st.length < (st.length : Int)
      then (st[(posIndex p st.length).toNat]?).map Todo.id
      else none := by
  unfold findTodoIdByPosition posIndex
  by_cases he : st.isEmpty
  · have h0 : st.length = 0 := by
      simpa [List.isEmpty_iff_length_eq_zero] using he
    rw [if_pos he, h0]
    rw [if_neg]
    intro hcon
    rcases hcon with ⟨ha, hb⟩
    split_ifs at ha hb <;> omega
  · rw [if_neg he]
    show (if (if p > 0 then p - 1 else (st.length : Int) + p) < 0 ∨
        (st.length : Int) ≤ if p > 0 then p - 1 else (st.length : Int) + p
      then none
      else (st[(if p > 0 then p - 1
                else (st.length : Int) + p).toNat]?).map Todo.id)
      = _
    split_ifs <;> first | rfl | (exfalso; omega)

/-- C2: when the spec index `posIndex p N` lies in `[0, N)`, positional
resolution returns the id of the record stored at that index; it returns
`none` (surfaced as NotFoundError by the callers) when the index is out
of range, and for every position on the empty list. -/
theorem c2_position_resolution (st : Store) (p : Int) :
    (0 ≤ posIndex p st.length → posIndex p st.length < (st.length : Int) →
       ∃ t : Todo, st[(posIndex p st.length).toNat]? = some t
         ∧ findTodoIdByPosition p st = some t.id)
  ∧ ((posIndex p st.length < 0 ∨ (st.length : Int) ≤ posIndex p st.length) →
       findTodoIdByPosition p st = none)
  ∧ (st = [] → findTodoIdByPosition p st = none) := by
  refine ⟨?_, ?_, ?_⟩
  · intro h0 h1
    have hlt : (posIndex p st.length).toNat < st.length := by omega
    refine ⟨st[(posIndex p st.length).toNat], List.getElem?_eq_getElem hlt, ?_⟩
    rw [findTodoIdByPosition_eq, if_pos ⟨h0, h1⟩, List.getElem?_eq_getElem hlt]
    rfl
  · intro h
    rw [findTodoIdByPosition_eq, if_neg]
    intro hcon
    omega
  · rintro rfl
    simp [findTodoIdByPosition]

/-- C2 witness: on the two-record demo store, position −1 resolves to the
last record (id 2), and position 3 as well as the empty store resolve to
`none`. -/
theorem c2_position_resolution_witness :
    findTodoIdByPosition (-1) demoStore = some 2
  ∧ findTodoIdByPosition 3 demoStore = none
  ∧ findTodoIdByPosition 1 ([] : Store) = none := by
  refine ⟨?_, ?_, ?_⟩
  · obtain ⟨t, ht, he⟩ :=
      (c2_position_resolution demoStore (-1)).1 (by decide) (by decide)
    have hd : demoStore[(posIndex (-1) demoStore.length).toNat]?
        = some (⟨2, "Read book".toList, false⟩ : Todo) := by decide
    have h3 : t = ⟨2, "Read book".toList, false⟩ :=
      (Option.some.inj (hd.symm.trans ht)).symm
    rw [he, h3]
  · exact (c2_position_resolution demoStore 3).2.1 (by decide)
  · exact (c2_position_resolution ([] : Store) 1).2.2 rfl

/-- `List.find?` returns the first satisfying element: every element at an
earlier index fails the test. -/
theorem find?_eq_some_first {α : Type} (q : α → Bool) (l : List α) (a : α)
    (h : l.find? q = some a) :
    ∃ k : Nat, l[k]? = some a ∧ q a = true ∧
      ∀ (j : Nat) (b : α), j < k → l[j]? = some b → q b = false := by
  induction l with
  | nil => simp at h
  | cons x xs ih =>
    by_cases hx : q x = true
    · rw [List.find?_cons_of_pos _ hx] at h
      obtain rfl : x = a := Option.some.inj h
      exact ⟨0, by simp, hx, fun j b hj _ => absurd hj (by omega)⟩
    · rw [List.find?_cons_of_neg _ hx] at h
      obtain ⟨k, hk, hqa, hfirst⟩ := ih h
      refine ⟨k + 1, by simpa using hk, hqa, ?_⟩
      intro j b hj hjb
      cases j with
      | zero =>
        have hbx : b = x := by
          rw [List.getElem?_cons_zero] at hjb
          exact (Option.some.inj hjb).symm
        rw [hbx]
        exact Bool.not_eq_true _ ▸ hx
      | succ j' =>
        exact hfirst j' b (by omega) (by simpa using hjb)

/-- C3: fuzzy resolution yields `none` (surfaced as NotFoundError by the
callers) exactly when no stored task contains the lowercased fragment,
and when it yields an id it is the id of the first record, in store
order, whose lowercased task contains the lowercased fragment. -/
theorem c3_fuzzy_resolution (st : Store) (frag : List Char) :
    (findTodoIdByPartialTaskName frag st = none ↔
       ∀ t ∈ st, containsSub (lowerL frag) (lowerL t.task) = false)
  ∧ (∀ i : Int, findTodoIdByPartialTaskName frag st = some i →
       ∃ (k : Nat) (t : Todo), st[k]? = some t ∧ t.id = i
         ∧ containsSub (lowerL frag) (lowerL t.task) = true
         ∧ ∀ (j : Nat) (u : Todo), j < k → st[j]? = some u →
             containsSub (lowerL frag) (lowerL u.task) = false) := by
  constructor
  · cases st with
    | nil => simp [findTodoIdByPartialTaskName]
    | cons a l =>
      simp only [findTodoIdByPartialTaskName, List.isEmpty_cons,
        Bool.false_eq_true, if_false, Option.map_eq_none', List.find?_eq_none]
      constructor
      · intro h t ht
        simpa using h t ht
      · intro h t ht
        simpa using h t ht
  · intro i hi
    cases st with
    | nil => simp [findTodoIdByPartialTaskName] at hi
    | cons a l =>
      simp only [findTodoIdByPartialTaskName, List.isEmpty_cons,
        Bool.false_eq_true, if_false, Option.map_eq_some'] at hi
      obtain ⟨t0, hf, hid⟩ := hi
      obtain ⟨k, hk, hq, hfirst⟩ := find?_eq_some_first _ _ _ hf
      exact ⟨k, t0, hk, hid, hq, hfirst⟩

/-- C3 witness: "book" matches the record with task "Read a book"; the
resolution returns its id 1 and it is the first match, and on a store
whose tasks lack the fragment the resolution returns none. -/
theorem c3_fuzzy_resolution_witness :
    (∃ (k : Nat) (t : Todo),
        ([⟨1, "Read a book".toList, false⟩] : Store)[k]? = some t
      ∧ t.id = 1
      ∧ containsSub (lowerL "book".toList) (lowerL t.task) = true
      ∧ ∀ (j : Nat) (u : Todo), j < k →
          ([⟨1, "Read a book".toList, false⟩] : Store)[j]? = some u →
          containsSub (lowerL "book".toList) (lowerL u.task) = false)
  ∧ findTodoIdByPartialTaskName "laundry".toList demoStore = none :=
  ⟨(c3_fuzzy_resolution [⟨1, "Read a book".toList, false⟩] "book".toList).2
      1 (by decide),
   (c3_fuzzy_resolution demoStore "laundry".toList).1.2 (by decide)⟩

/-- C4: target resolution for update and delete intents follows the fixed
priority id, position, task fragment.  A numeric id makes the result
independent of the position and task fields and dispatches directly on
the id; with no id, a numeric position makes the result independent of
the task field; with none of the three references present, both handlers
answer the 400 validation error and leave the store unchanged. -/
theorem c4_resolution_priority (p : Parsed) (st : Store) :
    (∀ i : Int, p.id = some i →
       (handleUpdateIntent p st = UpdateTodo i (mkUpdateBody p) none st
        ∧ handleDeleteIntent p st = DeleteTodo i none st)
       ∧ ∀ (pos : Option Int) (frag : Option (List Char)),
           handleUpdateIntent { p with position := pos, task := frag } st
             = handleUpdateIntent p st
           ∧ handleDeleteIntent { p with position := pos, task := frag } st
             = handleDeleteIntent p st)
  ∧ (p.id = none → ∀ pos : Int, p.position = some pos →
       ∀ frag : Option (List Char),
         handleUpdateIntent { p with task := frag } st
           = handleUpdateIntent p st
         ∧ handleDeleteIntent { p with task := frag } st
           = handleDeleteIntent p st)
  ∧ (p.id = none → p.position = none → p.task = none →
       handleUpdateIntent p st
         = (.err 400 "Need either id, position, or task text for update", st)
       ∧ handleDeleteIntent p st
         = (.err 400 "Need either id, position, or task text for delete",
            st)) := by
  obtain ⟨pint, pid, ppos, ptask, pnew, pdone⟩ := p
  refine ⟨?_, ?_, ?_⟩
  · rintro i rfl
    exact ⟨⟨rfl, rfl⟩, fun pos frag => ⟨rfl, rfl⟩⟩
  · rintro rfl pos rfl frag
    exact ⟨rfl, rfl⟩
  · rintro rfl rfl rfl
    exact ⟨rfl, rfl⟩

/-- C4 witness: a parsed intent with all three references present
dispatches on the id alone, and one with none of them is rejected with
the 400 validation error. -/
theorem c4_resolution_priority_witness :
    handleUpdateIntent
        ⟨"update", some 2, some 1, some "milk".toList, none, some true⟩
        demoStore
      = UpdateTodo 2
          (mkUpdateBody
            ⟨"update", some 2, some 1, some "milk".toList, none, some true⟩)
          none demoStore
  ∧ handleUpdateIntent ⟨"update", none, none, none, none, some true⟩ demoStore
      = (.err 400 "Need either id, position, or task text for update",
         demoStore) :=
  ⟨((c4_resolution_priority
      ⟨"update", some 2, some 1, some "milk".toList, none, some true⟩
      demoStore).1 2 rfl).1.1,
   ((c4_resolution_priority ⟨"update", none, none, none, none, some true⟩
      demoStore).2.2 rfl rfl rfl).1⟩

/-- Dropping leading whitespace leaves a string starting with a
non-whitespace character unchanged. -/
theorem trimLeft_cons_of_neg {c : Char} {l : List Char} (h : isWS c = false) :
    trimLeft (c :: l) = c :: l := by
  simp [trimLeft, List.dropWhile_cons, h]

/-- Dropping trailing whitespace leaves a string ending with a
non-whitespace character unchanged. -/
theorem trimRight_append_of_neg {c : Char} {l : List Char}
    (h : isWS c = false) : trimRight (l ++ [c]) = l ++ [c] := by
  simp [trimRight, List.dropWhile_cons, h]

/-- A trailing whitespace character is removed by the right trim. -/
theorem trimRight_append_ws {c : Char} {l : List Char} (h : isWS c = true) :
    trimRight (l ++ [c]) = trimRight l := by
  simp [trimRight, List.dropWhile_cons, h]

/-- Every string starts with its own prefix. -/
theorem startsWithL_append (a b : List Char) :
    startsWithL (a ++ b) a = true := by
  induction a with
  | nil => cases b <;> rfl
  | cons x xs ih => simp [startsWithL, ih]

/-- Every string ends with its own suffix. -/
theorem endsWithL_append (a b : List Char) : endsWithL (a ++ b) b = true := by
  rw [endsWithL, List.reverse_append]
  exact startsWithL_append _ _

/-- Stripping the opening marker from a string that carries it drops the
marker and the whitespace after it. -/
theorem stripFenceStart_fenced (rest : List Char) :
    stripFenceStart (fenceJson ++ rest) = trimLeft rest := by
  rw [stripFenceStart, if_pos (startsWithL_append _ _)]
  congr 1

/-- Stripping the closing marker from a string that carries it drops the
last three characters. -/
theorem stripFenceEnd_fenced (x : List Char) :
    stripFenceEnd (x ++ fenceEnd) = x := by
  rw [stripFenceEnd, if_pos (endsWithL_append _ _)]
  have hlen : (x ++ fenceEnd).length - 3 = x.length := by
    simp [fenceEnd]
  rw [hlen, List.take_left]

/-- A non-empty string untouched by the left trim starts with a
non-whitespace character. -/
theorem head_not_ws_of_trimLeft {c : Char} {l : List Char}
    (h : trimLeft (c :: l) = c :: l) : isWS c = false := by
  by_contra hc
  rw [Bool.not_eq_false] at hc
  rw [trimLeft, List.dropWhile_cons, if_pos hc] at h
  have hlen := congrArg List.length h
  have hle : (l.dropWhile isWS).length ≤ l.length :=
    (List.dropWhile_sublist isWS).length_le
  simp at hlen
  omega

/-- C5: a response consisting of trimmed fence-free content wrapped in the
opening marker, a newline, the content, a newline and the closing marker
cleans to exactly the content, and the unwrapped content cleans to
itself; hence both are parsed from the identical cleaned string. -/
theorem c5_fence_round_trip (c : List Char) (h1 : trimLeft c = c)
    (h2 : trimRight c = c) (h3 : c ≠ [])
    (h4 : startsWithL c fenceJson = false)
    (h5 : endsWithL c fenceEnd = false) :
    cleanJsonString (fenceJson ++ ('\n' :: (c ++ ('\n' :: fenceEnd)))) = c
  ∧ cleanJsonString c = c := by
  obtain ⟨hd, tl, rfl⟩ : ∃ hd tl, c = hd :: tl := by
    cases c with
    | nil => exact absurd rfl h3
    | cons x xs => exact ⟨x, xs, rfl⟩
  have hhd : isWS hd = false := head_not_ws_of_trimLeft h1
  constructor
  · have hw1 : trimLeft
          (fenceJson ++ ('\n' :: ((hd :: tl) ++ ('\n' :: fenceEnd))))
        = fenceJson ++ ('\n' :: ((hd :: tl) ++ ('\n' :: fenceEnd))) := by
      show trimLeft (btick :: ([btick, btick, 'j', 's', 'o', 'n'] ++
        ('\n' :: ((hd :: tl) ++ ('\n' :: fenceEnd))))) = _
      rw [trimLeft_cons_of_neg (by decide)]
      rfl
    have hw2 : trimRight
          (fenceJson ++ ('\n' :: ((hd :: tl) ++ ('\n' :: fenceEnd))))
        = fenceJson ++ ('\n' :: ((hd :: tl) ++ ('\n' :: fenceEnd))) := by
      have hsplit : fenceJson ++ ('\n' :: ((hd :: tl) ++ ('\n' :: fenceEnd)))
          = (fenceJson ++ ('\n' :: ((hd :: tl) ++ ['\n', btick, btick])))
            ++ [btick] := by
        simp [fenceJson, fenceEnd]
      rw [hsplit, trimRight_append_of_neg (by decide)]
    have hjs : jsTrim (fenceJson ++ ('\n' :: ((hd :: tl) ++ ('\n' :: fenceEnd))))
        = fenceJson ++ ('\n' :: ((hd :: tl) ++ ('\n' :: fenceEnd))) := by
      rw [jsTrim, hw1, hw2]
    have hstart : stripFenceStart
          (fenceJson ++ ('\n' :: ((hd :: tl) ++ ('\n' :: fenceEnd))))
        = (hd :: tl) ++ ('\n' :: fenceEnd) := by
      rw [stripFenceStart_fenced, trimLeft, List.dropWhile_cons,
        if_pos (by decide)]
      show trimLeft (hd :: (tl ++ ('\n' :: fenceEnd))) = _
      rw [trimLeft_cons_of_neg hhd]
      rfl
    have hend : stripFenceEnd ((hd :: tl) ++ ('\n' :: fenceEnd))
        = (hd :: tl) ++ ['\n'] := by
      have hsplit : (hd :: tl) ++ ('\n' :: fenceEnd)
          = ((hd :: tl) ++ ['\n']) ++ fenceEnd := by
        simp
      rw [hsplit, stripFenceEnd_fenced]
    rw [cleanJsonString, hjs, hstart, hend, jsTrim]
    show trimRight (trimLeft (hd :: (tl ++ ['\n']))) = _
    rw [trimLeft_cons_of_neg hhd]
    show trimRight ((hd :: tl) ++ ['\n']) = _
    rw [trimRight_append_ws (by decide), h2]
  · have hjs0 : jsTrim (hd :: tl) = hd :: tl := by
      rw [jsTrim, h1, h2]
    rw [cleanJsonString, hjs0, stripFenceStart, if_neg (by simp [h4]),
      stripFenceEnd, if_neg (by simp [h5]), hjs0]

/-- C5 witness: the concrete content "[1, 2]" cleans to itself both when
wrapped in the json code fence and when unwrapped. -/
theorem c5_fence_round_trip_witness :
    cleanJsonString
        (fenceJson ++ ('\n' :: ("[1, 2]".toList ++ ('\n' :: fenceEnd))))
      = "[1, 2]".toList
  ∧ cleanJsonString "[1, 2]".toList = "[1, 2]".toList :=
  c5_fence_round_trip "[1, 2]".toList (by decide) (by decide) (by decide)
    (by decide) (by decide)

/-- The empty fragment is contained in every text. -/
theorem containsSub_nil (h : List Char) : containsSub [] h = true := by
  cases h with
  | nil => rfl
  | cons c t => simp [containsSub, startsWithL]

/-- C9 counterexample: on the one-record store whose first (and only)
record has id 0, an update intent carrying only the empty task fragment
is rejected with 404 — the handler's falsy check `!id` treats the
resolved id 0 as not found — even though fuzzy resolution does resolve
the empty fragment to that first record's id.  This refutes the claim
that such an intent always targets the first record rather than being
rejected. -/
theorem c9_zero_id_rejected :
    handleUpdateIntent ⟨"update", none, none, some [], none, some true⟩
        [⟨0, "x".toList, false⟩]
      = (.err 404 "No task found matching the given text",
         [⟨0, "x".toList, false⟩])
  ∧ findTodoIdByPartialTaskName [] [⟨0, "x".toList, false⟩] = some 0 := by
  decide

/-- C9 amended: on every non-empty store, fuzzy resolution with the empty
fragment resolves to the id of the first record; an update or delete
intent carrying `task = ""` and no id or position therefore targets the
first record — provided its id is nonzero; when the first record's id is
0, the handler's falsy check rejects the request with 404 instead. -/
theorem c9_empty_fragment_first (t : Todo) (ts : List Todo)
    (d : Option Bool) :
    findTodoIdByPartialTaskName [] (t :: ts) = some t.id
  ∧ (t.id ≠ 0 →
      handleUpdateIntent ⟨"update", none, none, some [], none, d⟩ (t :: ts)
        = UpdateTodo t.id ⟨d, none⟩ none (t :: ts)
      ∧ handleDeleteIntent ⟨"delete", none, none, some [], none, none⟩
          (t :: ts)
        = DeleteTodo t.id none (t :: ts))
  ∧ (t.id = 0 →
      handleUpdateIntent ⟨"update", none, none, some [], none, d⟩ (t :: ts)
        = (.err 404 "No task found matching the given text", t :: ts)) := by
  have hfind : findTodoIdByPartialTaskName [] (t :: ts) = some t.id := by
    rw [findTodoIdByPartialTaskName]
    rw [if_neg (by simp)]
    rw [List.find?_cons_of_pos _ (by simpa [lowerL] using containsSub_nil _)]
    rfl
  refine ⟨hfind, ?_, ?_⟩
  · intro hne
    have hfalsy : jsFalsyId (findTodoIdByPartialTaskName [] (t :: ts))
        = false := by
      rw [hfind]
      simpa [jsFalsyId] using hne
    constructor
    · show (let idO := findTodoIdByPartialTaskName [] (t :: ts);
        if jsFalsyId idO then
          (.err 404 "No task found matching the given text", t :: ts)
        else UpdateTodo (idO.getD 0)
          (mkUpdateBody ⟨"update", none, none, some [], none, d⟩) none
          (t :: ts)) = _
      rw [hfind]
      rw [if_neg (by rw [hfind] at hfalsy; simp [hfalsy])]
      rfl
    · show (let idO := findTodoIdByPartialTaskName [] (t :: ts);
        if jsFalsyId idO then
          (.err 404 "No task found matching the given text", t :: ts)
        else DeleteTodo (idO.getD 0) none (t :: ts)) = _
      rw [hfind]
      rw [if_neg (by rw [hfind] at hfalsy; simp [hfalsy])]
      rfl
  · intro hzero
    show (let idO := findTodoIdByPartialTaskName [] (t :: ts);
      if jsFalsyId idO then
        (.err 404 "No task found matching the given text", t :: ts)
      else UpdateTodo (idO.getD 0)
        (mkUpdateBody ⟨"update", none, none, some [], none, d⟩) none
        (t :: ts)) = _
    rw [hfind]
    rw [if_pos (by simp [jsFalsyId, hzero])]

/-- C9 amended witness: on the demo store (first record id 1 ≠ 0), the
empty fragment resolves to id 1 and the update intent with `task = ""`
and `done = true` delegates to `UpdateTodo` on id 1. -/
theorem c9_empty_fragment_first_witness :
    findTodoIdByPartialTaskName [] demoStore = some 1
  ∧ handleUpdateIntent
        ⟨"update", none, none, some [], none, some true⟩ demoStore
      = UpdateTodo 1 ⟨some true, none⟩ none demoStore :=
  ⟨(c9_empty_fragment_first ⟨1, "Buy milk".toList, false⟩
      [⟨2, "Read book".toList, false⟩] (some true)).1,
   ((c9_empty_fragment_first ⟨1, "Buy milk".toList, false⟩
      [⟨2, "Read book".toList, false⟩] (some true)).2.1 (by decide)).1⟩

end TodoAI
